import Mathlib

/-!
Verification development for the CodeHive dependency-graph engine.

The definitions below are a shallow embedding of the engine code:
  - `parseCppIncludes`, `buildGraph` and their helpers embed `src/types.ts`;
  - `simulateMove` embeds `handleSandboxMove` from `src/App.tsx`;
  - `highlightNeighbors` embeds the highlighting BFS from `src/App.tsx`.
JavaScript strings are modelled as Lean `String` (operating on `String.data`
character lists); JavaScript regular expressions are modelled by explicit
scanners with the same leftmost, non-overlapping match semantics.
-/

/-- JS `\s` on the ASCII range (space, tab, newline, carriage return,
vertical tab, form feed).  All inputs considered here are ASCII. -/
def isJsSpace (c : Char) : Bool :=
  c = ' ' || c = '\t' || c = '\n' || c = '\r' || c = '\x0b' || c = '\x0c'

/-- One attempted match of the include regex
`/^\s*#\s*include\s+["<]([^">]+)[">]/` at the current position (the `^`
anchor is checked by the caller).  Returns the captured group and the
remaining input after the whole match.  Each quantified class is disjoint
from the token that follows it, so greedy matching needs no backtracking. -/
def matchAt (l : List Char) : Option (String × List Char) :=
  match l.dropWhile isJsSpace with
  | '#' :: r1 =>
    match r1.dropWhile isJsSpace with
    | 'i' :: 'n' :: 'c' :: 'l' :: 'u' :: 'd' :: 'e' :: r3 =>
      match r3 with
      | c :: _ =>
        if isJsSpace c then
          match r3.dropWhile isJsSpace with
          | d :: r6 =>
            if d = '"' ∨ d = '<' then
              let cap := r6.takeWhile (fun e => !(e == '"' || e == '>'))
              match r6.dropWhile (fun e => !(e == '"' || e == '>')) with
              | _ :: r8 => if cap.isEmpty then none else some (⟨cap⟩, r8)
              | [] => none
            else none
          | [] => none
        else none
      | [] => none
    | _ => none
  | _ => none

/-- Scanner for the global (`g`) + multiline (`m`) include regex: try a match
at every position that is the start of the string or follows a newline, and
resume after the end of each match.  `fuel` only bounds recursion; every step
consumes at least one character, so `length + 1` fuel is always enough. -/
def scanIncludes : Nat → Bool → List Char → List String
  | 0, _, _ => []
  | _ + 1, _, [] => []
  | fuel + 1, atStart, c :: cs =>
    if atStart then
      match matchAt (c :: cs) with
      | some (s, rest) => s :: scanIncludes fuel false rest
      | none => scanIncludes fuel (c == '\n') cs
    else scanIncludes fuel (c == '\n') cs

/-- Embedding of `parseCppIncludes` from `src/types.ts`: all matches of
`/^\s*#\s*include\s+["<]([^">]+)[">]/gm` over the content, in order. -/
def parseCppIncludes (content : String) : List String :=
  scanIncludes (content.data.length + 1) true content.data

/-- A file under analysis (`CodeFile` in `src/types.ts`).  `size` is the byte
length; `content` is irrelevant to graph building (the engine consumes the
stored `includes` list) and is kept for fidelity. -/
structure CodeFile where
  name : String
  path : String
  content : String := ""
  size : Nat := 0
  includes : List String
  churn : Option Nat := none
  lastModified : Option String := none
deriving DecidableEq

/-- A graph node (`GraphNode` in `src/types.ts`), display fields included.
`size` in the source is `Math.sqrt(f.size) / 2 + 5`, a display-only float;
it is modelled by the analogous dampened natural `Nat.sqrt f.size / 2 + 5`
(no claim depends on the numeric value, only on the field being a fixed
function of the byte size). -/
structure GraphNode where
  id : String
  name : String
  path : String
  group : String
  size : Nat
  churn : Option Nat := none
  lastModified : Option String := none
  isBroken : Option Bool := none
deriving DecidableEq

/-- A directed edge (`GraphLink` in `src/types.ts`). -/
structure GraphLink where
  source : String
  target : String
deriving DecidableEq

/-- The graph data (`CodebaseData` in `src/types.ts`).  The source stores
`files` as a JS object built with `Object.fromEntries(files.map(f =>
[f.path, f]))`; it is modelled as the underlying association list. -/
structure CodebaseData where
  nodes : List GraphNode
  links : List GraphLink
  files : List (String × CodeFile)
deriving DecidableEq

/-- JS `s.split('/')`: always at least one (possibly empty) segment. -/
def splitSlash : List Char → List (List Char)
  | [] => [[]]
  | '/' :: rest => [] :: splitSlash rest
  | c :: rest =>
    match splitSlash rest with
    | [] => [[c]]
    | seg :: segs => (c :: seg) :: segs

/-- JS `segs.join('/')`. -/
def joinSlash : List (List Char) → List Char
  | [] => []
  | [x] => x
  | x :: xs => x ++ '/' :: joinSlash xs

/-- JS `s.split('/').pop() || s` (the `||` falls back to the whole string
when the last segment is the empty string, which is falsy in JS). -/
def jsLastSeg (s : String) : String :=
  let last := (splitSlash s.data).getLastD []
  if last.isEmpty then s else ⟨last⟩

/-- JS `s.split('/').slice(0, -1).join('/')`: the directory part. -/
def dirname (s : String) : String :=
  ⟨joinSlash (splitSlash s.data).dropLast⟩

/-- JS `s.endsWith(suffix)`. -/
def jsEndsWith (s suffix : String) : Bool :=
  suffix.data.isSuffixOf s.data

/-- JS `s.toLowerCase()` on the ASCII range. -/
def lowerStr (s : String) : String :=
  ⟨s.data.map Char.toLower⟩

/-- First replacement pass of `buildGraph`'s path normalization:
`potentialPath.replace(/\/.\//g, '/')`.  The dot in the source regex is
unescaped, so the pattern is slash, ANY one character (except newline),
slash; matches are leftmost and non-overlapping, and scanning resumes after
each match.  `fuel = length + 1` is always sufficient. -/
def replAnySlash : Nat → List Char → List Char
  | 0, l => l
  | _ + 1, [] => []
  | fuel + 1, '/' :: c :: '/' :: rest =>
    if c = '\n' then '/' :: replAnySlash fuel (c :: '/' :: rest)
    else '/' :: replAnySlash fuel rest
  | fuel + 1, c :: rest => c :: replAnySlash fuel rest

/-- Second replacement pass: `.replace(/[^\/]+\/\.\.\//g, '')`.  At each
position, a maximal nonempty run of non-slash characters followed by the
four characters `/../` is deleted; otherwise scanning advances one
character. -/
def replDotDot : Nat → List Char → List Char
  | 0, l => l
  | _ + 1, [] => []
  | fuel + 1, c :: rest =>
    if c = '/' then c :: replDotDot fuel rest
    else
      let run := (c :: rest).takeWhile (fun e => !(e == '/'))
      match (c :: rest).drop run.length with
      | '/' :: '.' :: '.' :: '/' :: rest2 => replDotDot fuel rest2
      | _ => c :: replDotDot fuel rest

/-- The two-pass textual normalization used by `buildGraph` on
`currentDir + '/' + include`. -/
def normalizePath (s : String) : String :=
  let step1 := replAnySlash (s.data.length + 1) s.data
  ⟨replDotDot (step1.length + 1) step1⟩

/-- The three-strategy include resolution inlined in `buildGraph`
(`src/types.ts`, lines 110-134): (1) relative/normalized/verbatim/suffix
match, (2) first file sharing the include's final filename segment (the
`filenameToPaths` map lists paths in file-set order, so `candidates[0]` is
the first such file), (3) case-insensitive suffix match. -/
def resolveInclude (files : List CodeFile) (file : CodeFile) (inc : String) :
    Option String :=
  let currentDir := dirname file.path
  let includeName := jsLastSeg inc
  let potentialPath := if currentDir = "" then inc else currentDir ++ "/" ++ inc
  let normalized := normalizePath potentialPath
  match files.find? (fun f =>
      decide (f.path = normalized) || decide (f.path = inc) ||
      jsEndsWith f.path inc) with
  | some f => some f.path
  | none =>
    match files.find? (fun f => decide (jsLastSeg f.path = includeName)) with
    | some f => some f.path
    | none =>
      match files.find? (fun f =>
          jsEndsWith (lowerStr f.path) (lowerStr inc)) with
      | some f => some f.path
      | none => none

/-- Node construction in `buildGraph`: group is the directory (JS
`|| 'root'` replaces the falsy empty string). -/
def nodeOfFile (f : CodeFile) : GraphNode :=
  { id := f.path
    name := f.name
    path := f.path
    group := if dirname f.path = "" then "root" else dirname f.path
    size := Nat.sqrt f.size / 2 + 5
    churn := f.churn
    lastModified := f.lastModified }

/-- The edges contributed by one file: one per include whose resolution
succeeds, is truthy (a resolved empty-string path is falsy in the JS guard
`targetPath && targetPath !== file.path`) and differs from the declaring
file's own path.  The source pushes links in include order with no
de-duplication. -/
def edgesOfFile (files : List CodeFile) (f : CodeFile) : List GraphLink :=
  f.includes.filterMap fun inc =>
    match resolveInclude files f inc with
    | some tp => if tp = "" ∨ tp = f.path then none else some ⟨f.path, tp⟩
    | none => none

/-- Embedding of `buildGraph` from `src/types.ts`. -/
def buildGraph (files : List CodeFile) : CodebaseData :=
  { nodes := files.map nodeOfFile
    links := files.flatMap (edgesOfFile files)
    files := files.map fun f => (f.path, f) }

/-- The moved file set of `handleSandboxMove` (`src/App.tsx`): the file at
`oldPath` gets identity `newPath`; its `name`, `content` and `includes` are
unchanged. -/
def movedFiles (files : List CodeFile) (oldPath newPath : String) :
    List CodeFile :=
  files.map fun f => if f.path = oldPath then { f with path := newPath } else f

/-- The per-include breakage test of `handleSandboxMove`:
`!updatedFiles.some(f => f.path.endsWith(incName))` where `incName` is the
include's final filename segment. -/
def brokenInclude (fs : List CodeFile) (inc : String) : Bool :=
  !(fs.any fun f => jsEndsWith f.path (jsLastSeg inc))

/-- The `isBroken` value `handleSandboxMove` assigns to the node at path
`p`: `none` when no file matches (the node is left untouched), otherwise
whether the first matching file has some include failing the filename
test. -/
def brokenAt (fs : List CodeFile) (p : String) : Option Bool :=
  (fs.find? fun f => decide (f.path = p)).map fun file =>
    file.includes.any (brokenInclude fs)

/-- The node-marking step of `handleSandboxMove`. -/
def markNode (fs : List CodeFile) (n : GraphNode) : GraphNode :=
  match fs.find? (fun f => decide (f.path = n.path)) with
  | some file =>
    { n with isBroken := some (file.includes.any (brokenInclude fs)) }
  | none => n

/-- Embedding of `handleSandboxMove` from `src/App.tsx` as a pure function of the file
set and the move (the surrounding `setSandboxMoves`/`setGraphData` state
updates are UI plumbing around exactly this computation). -/
def simulateMove (files : List CodeFile) (oldPath newPath : String) :
    CodebaseData :=
  let updatedFiles := movedFiles files oldPath newPath
  let g := buildGraph updatedFiles
  { g with nodes := g.nodes.map (markNode updatedFiles) }

/-- The highlight direction policy (`highlightMode` in `src/App.tsx`:
`'all' | 'out' | 'in'`). -/
inductive HighlightMode
  | all
  | out
  | inb
deriving DecidableEq

/-- Processing of one link in one BFS level of the highlighting effect
(`src/App.tsx`, lines 512-533): the outbound test runs first, then the
inbound test, each adding the opposite endpoint when new.  The accumulator
is (visited set in insertion order, next level).  The `activeLinks` set
collected alongside does not influence the visited node set and is not
modelled. -/
def addNode (acc : List String × List String) (y : String) :
    List String × List String :=
  if acc.1.contains y then acc else (acc.1 ++ [y], acc.2 ++ [y])

/-- The outbound test runs first, then the inbound test, each adding the
opposite endpoint of the link via `addNode` (JS `if (!neighbors.has(t))
{ neighbors.add(t); nextLevel.push(t); }`). -/
def stepLink (mode : HighlightMode) (cur : List String)
    (acc : List String × List String) (l : GraphLink) :
    List String × List String :=
  let acc1 :=
    if cur.contains l.source ∧ (mode = .all ∨ mode = .out) then
      addNode acc l.target
    else acc
  if cur.contains l.target ∧ (mode = .all ∨ mode = .inb) then
    addNode acc1 l.source
  else acc1

/-- The depth-bounded level loop (`for (let i = 0; i < highlightDepth; i++)`
with the early `break` once a level adds no node). -/
def runLevels (links : List GraphLink) (mode : HighlightMode) :
    Nat → List String → List String → List String
  | 0, nb, _ => nb
  | k + 1, nb, cur =>
    let s := links.foldl (stepLink mode cur) (nb, [])
    if s.2 = [] then s.1 else runLevels links mode k s.1 s.2

/-- The reachable node set of the highlighting BFS: start from
`{activePath}` and expand `depth` levels. -/
def highlightNeighbors (links : List GraphLink) (mode : HighlightMode)
    (start : String) (depth : Nat) : List String :=
  runLevels links mode depth [start] [start]

/-! ## Concrete fixtures used by counterexamples and witnesses -/

/-- A file whose only include resolves by no strategy, while its filename
`b.h` is still a suffix of the unrelated path `ab.h`. -/
def fX : CodeFile := { name := "x.cpp", path := "x.cpp", includes := ["dir/b.h"] }

/-- A file whose path ends with the two characters `b.h` without having
filename `b.h`. -/
def fAB : CodeFile := { name := "ab.h", path := "ab.h", includes := [] }

/-- File set separating the resolver-failure test from the filename-suffix
test used by the sandbox. -/
def F1 : List CodeFile := [fX, fAB]

/-- File `a/a.cpp` with the relative include `"b.h"` (spec section 8 scenario). -/
def fA : CodeFile := { name := "a.cpp", path := "a/a.cpp", includes := ["b.h"] }

/-- File `a/b.h`, the include target of `fA`. -/
def fB : CodeFile := { name := "b.h", path := "a/b.h", includes := [] }

/-- A file elsewhere whose include `b.h` is resolved by filename match. -/
def fC : CodeFile := { name := "c.cpp", path := "other/c.cpp", includes := ["b.h"] }

/-- The spec section 8 move scenario file set. -/
def F2 : List CodeFile := [fA, fB, fC]

/-- File `a/a.cpp` listing the same include target twice. -/
def fD : CodeFile := { name := "a.cpp", path := "a/a.cpp", includes := ["b.h", "b.h"] }

/-- File set producing a duplicated edge. -/
def F3 : List CodeFile := [fD, fB]

/-- A file with an include that matches no filename in its set. -/
def fM : CodeFile := { name := "a.cpp", path := "a.cpp", includes := ["missing.h"] }

/-- Singleton file set whose only file has an unresolvable include. -/
def F5 : List CodeFile := [fM]

/-- A decoy `util.h` placed first in iteration order. -/
def fZ : CodeFile := { name := "util.h", path := "zz/util.h", includes := [] }

/-- File `src/x/y.cpp` declaring the include `"../common/util.h"`
(spec section 8 scenario). -/
def fY : CodeFile := { name := "y.cpp", path := "src/x/y.cpp", includes := ["../common/util.h"] }

/-- File `src/common/util.h`, the intended resolution target. -/
def fU : CodeFile := { name := "util.h", path := "src/common/util.h", includes := [] }

/-- File set for the relative-path normalization scenario. -/
def F6 : List CodeFile := [fZ, fY, fU]

/-- A two-edge chain used to exercise the highlighting BFS. -/
def linksW : List GraphLink := [⟨"a", "b"⟩]

/-! ## Helper lemmas -/

/-- Nodes produced by the plain graph builder carry no `isBroken` flag. -/
lemma mem_buildGraph_nodes_isBroken {files : List CodeFile} {n : GraphNode}
    (h : n ∈ (buildGraph files).nodes) : n.isBroken = none := by
  simp only [buildGraph, List.mem_map] at h
  obtain ⟨f, _, rfl⟩ := h
  rfl

/-- Marking a node never changes its path. -/
lemma markNode_path (fs : List CodeFile) (n : GraphNode) :
    (markNode fs n).path = n.path := by
  unfold markNode
  split <;> rfl

/-- On a node without a prior flag, marking sets `isBroken` to exactly
`brokenAt`. -/
lemma markNode_isBroken (fs : List CodeFile) (n : GraphNode)
    (h : n.isBroken = none) : (markNode fs n).isBroken = brokenAt fs n.path := by
  unfold markNode brokenAt
  cases hf : fs.find? (fun f => decide (f.path = n.path)) <;> simp [hf, h]

/-! ## Claims C1 and C2: the sandbox breakage flag -/

/-- Claim C1 (amended): in the graph produced by the Sandbox Simulator, a
node's `isBroken` flag equals `brokenAt F'` at its path, i.e. it is `true`
iff the first file of the moved set `F'` at the node's path has an include
target whose final filename segment is not a plain string suffix of any
path in `F'` — the simulator does not invoke the three-strategy Path
Resolver at all. -/
theorem sandbox_isBroken_filename_check (files : List CodeFile)
    (oldPath newPath : String) (n : GraphNode)
    (hn : n ∈ (simulateMove files oldPath newPath).nodes) :
    n.isBroken = brokenAt (movedFiles files oldPath newPath) n.path := by
  simp only [simulateMove, List.mem_map] at hn
  obtain ⟨m, hm, rfl⟩ := hn
  rw [markNode_path, markNode_isBroken _ _ (mem_buildGraph_nodes_isBroken hm)]

/-- Claim C1, counterexample to the original statement: in `F1`, the include
`dir/b.h` of `x.cpp` fails all three Path Resolver strategies against the
(identically) moved file set, yet the simulator leaves the node unflagged
(`isBroken = some false`), because the unrelated path `ab.h` ends with the
filename `b.h`. -/
theorem sandbox_isBroken_not_resolver :
    "dir/b.h" ∈ fX.includes ∧
    resolveInclude (movedFiles F1 "x.cpp" "x.cpp") fX "dir/b.h" = none ∧
    ((simulateMove F1 "x.cpp" "x.cpp").nodes.find?
        (fun n => decide (n.path = "x.cpp"))).map GraphNode.isBroken
      = some (some false) := by decide

/-- Claim C1, witness: the characterization evaluated at the `F1` fixture. -/
theorem sandbox_isBroken_filename_check_witness :
    (⟨"x.cpp", "x.cpp", "x.cpp", "root", 5, none, none, some false⟩ :
        GraphNode).isBroken
      = brokenAt (movedFiles F1 "x.cpp" "x.cpp") "x.cpp" :=
  sandbox_isBroken_filename_check F1 "x.cpp" "x.cpp" _ (by decide)

/-- Claim C2, counterexample to the original statement: moving `a/b.h` to
`lib/b.h` does NOT flag `a/a.cpp`; the breakage test only asks whether some
path ends with the filename `b.h`, and `lib/b.h` still does. -/
theorem sandbox_move_leaves_acpp_unbroken :
    ((simulateMove F2 "a/b.h" "lib/b.h").nodes.find?
        (fun n => decide (n.path = "a/a.cpp"))).map GraphNode.isBroken
      = some (some false) := by decide

/-- Claim C2 (amended): after moving `a/b.h` to `lib/b.h` no node at all is
flagged broken — neither `a/a.cpp` (its relative include `"b.h"` still
passes the filename-suffix test, and even re-resolves to `lib/b.h` through
the suffix disjunct of strategy 1) nor the filename-match fallback file
`other/c.cpp`; both edges point at the moved header. -/
theorem sandbox_move_scenario :
    (simulateMove F2 "a/b.h" "lib/b.h").nodes.map
        (fun n => (n.path, n.isBroken))
      = [("a/a.cpp", some false), ("lib/b.h", some false),
         ("other/c.cpp", some false)] ∧
    (simulateMove F2 "a/b.h" "lib/b.h").links
      = [⟨"a/a.cpp", "lib/b.h"⟩, ⟨"other/c.cpp", "lib/b.h"⟩] := by decide

/-! ## Claim C6: relative-path normalization -/

/-- Claim C6: the code diverges from the spec scenario.  The first
normalization regex `/\/.\//g` has an unescaped dot, so the single-character
directory segment `x` is collapsed: `src/x/../common/util.h` normalizes to
`common/util.h` instead of `src/common/util.h`, strategy 1 fails, and the
filename fallback silently picks the first `util.h` in iteration order
(`zz/util.h` in `F6`), not `src/common/util.h`. -/
theorem normalize_collapses_single_char_dir :
    normalizePath "src/x/../common/util.h" = "common/util.h" ∧
    resolveInclude F6 fY "../common/util.h" = some "zz/util.h" := by decide

/-! ## Claims C9 and C10: the include extractor -/

/-- Claim C9, counterexample to the original statement: a directive-shaped
line inside a `/* ... */` block comment is still extracted. -/
theorem parse_includes_inside_comment :
    parseCppIncludes "/*\n#include \"x.h\"\n*/" = ["x.h"] := by decide

/-- Claim C9 (amended): the extractor is a pure line-anchored lexical scan
with no comment or string-literal awareness: whatever follows it, an input
opening a block comment and then carrying a directive-shaped line yields
that line's target as its first result. -/
theorem parse_includes_lexical_only (v : String) :
    (parseCppIncludes ("/*\n#include \"x.h\"\n" ++ v)).head? = some "x.h" := rfl

/-- Claim C10: the extractor does not require matching delimiters — a
directive opened with a double quote and closed with an angle bracket still
yields the enclosed token. -/
theorem parse_includes_mismatched_delims :
    parseCppIncludes "#include \"foo.h>" = ["foo.h"] := by decide

/-! ## Claim C7: monotonicity of the highlighting BFS in the depth bound -/

/-- Helper fact: `addNode` never removes a visited node. -/
lemma mem_addNode_fst {x : String} (acc : List String × List String)
    (y : String) (h : x ∈ acc.1) : x ∈ (addNode acc y).1 := by
  unfold addNode
  split
  · exact h
  · simp [h]

/-- Processing one link never removes a visited node. -/
lemma mem_stepLink_fst (mode : HighlightMode) (cur : List String)
    (l : GraphLink) {acc : List String × List String} {x : String}
    (h : x ∈ acc.1) : x ∈ (stepLink mode cur acc l).1 := by
  unfold stepLink
  dsimp only
  split
  · split
    · exact mem_addNode_fst _ _ (mem_addNode_fst _ _ h)
    · exact mem_addNode_fst _ _ h
  · split
    · exact mem_addNode_fst _ _ h
    · exact h

/-- One whole BFS level never removes a visited node. -/
lemma mem_foldl_stepLink (mode : HighlightMode) (cur : List String) :
    ∀ (links : List GraphLink) (acc : List String × List String) {x : String},
      x ∈ acc.1 → x ∈ (links.foldl (stepLink mode cur) acc).1 := by
  intro links
  induction links with
  | nil => intro acc x h; exact h
  | cons l ls ih => intro acc x h; exact ih _ (mem_stepLink_fst _ _ _ h)

/-- The visited set of the level loop is monotone in the remaining depth. -/
lemma runLevels_mono (links : List GraphLink) (mode : HighlightMode) :
    ∀ (k : Nat) (nb cur : List String) {x : String},
      x ∈ runLevels links mode k nb cur →
      x ∈ runLevels links mode (k + 1) nb cur := by
  intro k
  induction k with
  | zero =>
    intro nb cur x h
    rw [runLevels]
    split
    · exact mem_foldl_stepLink _ _ _ _ h
    · exact mem_foldl_stepLink _ _ _ _ h
  | succ k ih =>
    intro nb cur x h
    rw [runLevels] at h
    rw [runLevels]
    by_cases hs : (links.foldl (stepLink mode cur) (nb, [])).2 = []
    · rw [if_pos hs] at h
      rw [if_pos hs]
      exact h
    · rw [if_neg hs] at h
      rw [if_neg hs]
      exact ih _ _ h

/-- Claim C7: for every link set, direction policy, start node and depth
bound `k`, the node set reached by the highlighting BFS at depth `k + 1`
contains the node set reached at depth `k`. -/
theorem highlight_depth_mono (links : List GraphLink) (mode : HighlightMode)
    (start : String) (k : Nat) (x : String)
    (h : x ∈ highlightNeighbors links mode start k) :
    x ∈ highlightNeighbors links mode start (k + 1) :=
  runLevels_mono links mode k _ _ h

/-- Claim C7, witness: monotonicity applied at depth 0 on a one-link
graph. -/
theorem highlight_depth_mono_witness :
    "a" ∈ highlightNeighbors linksW .all "a" 1 :=
  highlight_depth_mono linksW .all "a" 0 "a" (by decide)

/-! ## Claim C8: no self-edges -/

/-- Every edge the builder creates has distinct endpoints: the JS guard
`targetPath !== file.path` rules the self-edge out. -/
lemma buildGraph_links_ne {files : List CodeFile} {l : GraphLink}
    (h : l ∈ (buildGraph files).links) : l.source ≠ l.target := by
  simp only [buildGraph, List.mem_flatMap] at h
  obtain ⟨f, _, hf⟩ := h
  simp only [edgesOfFile, List.mem_filterMap] at hf
  obtain ⟨inc, _, hinc⟩ := hf
  cases hr : resolveInclude files f inc with
  | none => simp [hr] at hinc
  | some tp =>
    simp only [hr] at hinc
    split at hinc
    · cases hinc
    · rename_i hg
      injection hinc with hl
      subst hl
      push_neg at hg
      intro hst
      exact hg.2 hst.symm

/-- Claim C8: for every file set and every file `f` in it, the built graph
contains no edge whose source and target are both `f.path`, even when an
include of `f` resolves to `f` itself. -/
theorem buildGraph_no_self_edge (files : List CodeFile) (f : CodeFile)
    (l : GraphLink) (_hf : f ∈ files) (hl : l ∈ (buildGraph files).links) :
    ¬(l.source = f.path ∧ l.target = f.path) :=
  fun h => buildGraph_links_ne hl (h.1.trans h.2.symm)

/-- Claim C8, witness: applied to the spec scenario set `F2` and its first
edge. -/
theorem buildGraph_no_self_edge_witness :
    ¬((GraphLink.mk "a/a.cpp" "a/b.h").source = fA.path ∧
      (GraphLink.mk "a/a.cpp" "a/b.h").target = fA.path) :=
  buildGraph_no_self_edge F2 fA ⟨"a/a.cpp", "a/b.h"⟩ (by decide) (by decide)

/-! ## Claims C4 and C5: degenerate sandbox moves -/

/-- On an unflagged node, marking is exactly "set `isBroken` from
`brokenAt`". -/
lemma markNode_eq_setBroken (fs : List CodeFile) (n : GraphNode)
    (h : n.isBroken = none) :
    markNode fs n = { n with isBroken := brokenAt fs n.path } := by
  unfold markNode brokenAt
  cases hf : fs.find? (fun f => decide (f.path = n.path)) with
  | none =>
    cases n
    simp_all
  | some file => simp

/-- Marking the builder's nodes sets each `isBroken` from `brokenAt`. -/
lemma map_markNode_buildGraph (fs files : List CodeFile) :
    ((buildGraph files).nodes.map (markNode fs))
      = (buildGraph files).nodes.map
          (fun n => { n with isBroken := brokenAt fs n.path }) :=
  List.map_congr_left fun n hn =>
    markNode_eq_setBroken fs n (mem_buildGraph_nodes_isBroken hn)

/-- When the move does not change the file set, the simulator returns the
plain builder graph with every node's `isBroken` set from the filename
check. -/
lemma simulateMove_of_moved_eq (files : List CodeFile)
    (oldPath newPath : String)
    (hm : movedFiles files oldPath newPath = files) :
    simulateMove files oldPath newPath =
      { nodes := (buildGraph files).nodes.map
          (fun n => { n with isBroken := brokenAt files n.path })
        links := (buildGraph files).links
        files := (buildGraph files).files } := by
  unfold simulateMove
  rw [hm]
  dsimp only
  rw [map_markNode_buildGraph]

/-- An identity move leaves the file set unchanged. -/
lemma movedFiles_self (files : List CodeFile) (p : String) :
    movedFiles files p p = files := by
  unfold movedFiles
  rw [show (files.map fun f => if f.path = p then { f with path := p } else f)
        = files.map id from
      List.map_congr_left fun f _ => by
        split
        · rename_i h
          cases f
          simp_all
        · rfl]
  exact List.map_id files

/-- A move whose `oldPath` matches no file leaves the file set unchanged. -/
lemma movedFiles_of_not_mem (files : List CodeFile) (oldPath newPath : String)
    (h : ∀ f ∈ files, f.path ≠ oldPath) :
    movedFiles files oldPath newPath = files := by
  unfold movedFiles
  rw [show (files.map fun f =>
          if f.path = oldPath then { f with path := newPath } else f)
        = files.map id from
      List.map_congr_left fun f hf => by
        rw [if_neg (h f hf)]
        rfl]
  exact List.map_id files

/-- Claim C4 (amended): simulating a move of `p` to `p` itself yields the
node, edge and file-index data of `buildGraph F` unchanged except that every
node's `isBroken` is (re)assigned from the filename check `brokenAt F` — it
is NOT guaranteed to be `false`: a file with an include whose filename is no
path's suffix is flagged broken even by the identity move. -/
theorem simulateMove_self (files : List CodeFile) (p : String) :
    simulateMove files p p =
      { nodes := (buildGraph files).nodes.map
          (fun n => { n with isBroken := brokenAt files n.path })
        links := (buildGraph files).links
        files := (buildGraph files).files } :=
  simulateMove_of_moved_eq files p p (movedFiles_self files p)

/-- Claim C4, counterexample to the original statement: the identity move of
`a.cpp` in `F5` flags the node (its include `missing.h` matches no filename),
so the result is not the unflagged `buildGraph F5`. -/
theorem simulateMove_self_flags_node :
    (simulateMove F5 "a.cpp" "a.cpp").nodes.map GraphNode.isBroken
        = [some true] ∧
    (buildGraph F5).nodes.map GraphNode.isBroken = [none] := by decide

/-- Claim C5 (amended): when `oldPath` is no file's path the simulator is a
total function returning the builder's nodes, edges and file index over the
unchanged `F`, with every node's `isBroken` (re)assigned from the filename
check — not necessarily unflagged. -/
theorem simulateMove_missing_old (files : List CodeFile)
    (oldPath newPath : String) (h : ∀ f ∈ files, f.path ≠ oldPath) :
    simulateMove files oldPath newPath =
      { nodes := (buildGraph files).nodes.map
          (fun n => { n with isBroken := brokenAt files n.path })
        links := (buildGraph files).links
        files := (buildGraph files).files } :=
  simulateMove_of_moved_eq files oldPath newPath
    (movedFiles_of_not_mem files oldPath newPath h)

/-- Claim C5, counterexample to the original statement: with `oldPath`
absent from `F5`, the simulator still flags the node whose include has no
filename match, so its result differs from the unmodified builder graph. -/
theorem simulateMove_missing_old_flags_node :
    (simulateMove F5 "zzz" "w").nodes.map GraphNode.isBroken = [some true] ∧
    (buildGraph F5).nodes.map GraphNode.isBroken = [none] := by decide

/-- Claim C5, witness: the amended statement applied to `F5` and an absent
`oldPath`. -/
theorem simulateMove_missing_old_witness :
    simulateMove F5 "zzz" "w" =
      { nodes := (buildGraph F5).nodes.map
          (fun n => { n with isBroken := brokenAt F5 n.path })
        links := (buildGraph F5).links
        files := (buildGraph F5).files } :=
  simulateMove_missing_old F5 "zzz" "w" (by decide)

/-! ## Claim C3: edge multiplicity -/

/-- Counting over a concatenation of per-element edge lists. -/
lemma countP_flatMap {α β : Type} (g : α → List β) (p : β → Bool) :
    ∀ l : List α, (l.flatMap g).countP p = (l.map fun a => (g a).countP p).sum := by
  intro l
  induction l with
  | nil => rfl
  | cons a l ih =>
    rw [show (a :: l).flatMap g = g a ++ l.flatMap g from rfl,
      List.countP_append, ih, List.map_cons, List.sum_cons]

/-- The number of `(s, t)` edges one file contributes: one per include
occurrence resolving to `t`, provided the file sits at `s` and `t` is
neither empty nor equal to `s` (the JS guard). -/
lemma count_edgesOfFile (files : List CodeFile) (f : CodeFile) (s t : String) :
    (edgesOfFile files f).countP (fun l => decide (l = ⟨s, t⟩))
      = if f.path = s ∧ ¬(t = "" ∨ t = s) then
          f.includes.countP fun inc =>
            decide (resolveInclude files f inc = some t)
        else 0 := by
  unfold edgesOfFile
  induction f.includes with
  | nil => simp
  | cons a l ih =>
    rw [List.filterMap_cons, List.countP_cons]
    cases hr : resolveInclude files f a with
    | none => exact ih
    | some tp =>
      dsimp only
      by_cases ht : tp = t
      · rw [decide_eq_true (show (some tp : Option String) = some t by rw [ht])]
        by_cases hg : tp = "" ∨ tp = f.path
        · have hcond : ¬(f.path = s ∧ ¬(t = "" ∨ t = s)) := by
            rintro ⟨h1, h2⟩
            apply h2
            rcases hg with h | h
            · exact Or.inl (by rw [← ht]; exact h)
            · exact Or.inr (by rw [← ht, ← h1]; exact h)
          rw [if_pos hg]
          exact ih.trans (by rw [if_neg hcond, if_neg hcond])
        · rw [if_neg hg]
          by_cases hfs : f.path = s
          · have hC : f.path = s ∧ ¬(t = "" ∨ t = s) := by
              refine ⟨hfs, ?_⟩
              push_neg at hg
              rintro (h | h)
              · exact hg.1 (by rw [ht]; exact h)
              · exact hg.2 (ht.trans (h.trans hfs.symm))
            refine Eq.trans (List.countP_cons _ _ _) ?_
            rw [ih, if_pos hC, if_pos hC]
            have hb : decide ((⟨f.path, tp⟩ : GraphLink) = ⟨s, t⟩) = true :=
              decide_eq_true (by rw [hfs, ht])
            rw [hb]
          · have hC : ¬(f.path = s ∧ ¬(t = "" ∨ t = s)) := fun h => hfs h.1
            refine Eq.trans (List.countP_cons _ _ _) ?_
            rw [ih, if_neg hC, if_neg hC]
            have hb : decide ((⟨f.path, tp⟩ : GraphLink) = ⟨s, t⟩) = false :=
              decide_eq_false (by simp [GraphLink.mk.injEq, hfs])
            rw [hb]
            rfl
      · rw [decide_eq_false
          (show ¬((some tp : Option String) = some t) by simp [ht])]
        by_cases hg : tp = "" ∨ tp = f.path
        · rw [if_pos hg]
          exact ih
        · rw [if_neg hg]
          refine Eq.trans (List.countP_cons _ _ _) ?_
          rw [ih]
          have hb : decide ((⟨f.path, tp⟩ : GraphLink) = ⟨s, t⟩) = false :=
            decide_eq_false (by simp [GraphLink.mk.injEq, ht])
          rw [hb]
          rfl

/-- Claim C3 (amended): the builder does NOT de-duplicate edges — for every
ordered pair `(s, t)` the number of `(s, t)` edges equals the total number of
include occurrences, over files at path `s`, resolving to `t` (with the
self-edge and empty-target guards); in particular a file repeating an
include target contributes one edge per occurrence. -/
theorem buildGraph_link_multiplicity (files : List CodeFile) (s t : String) :
    (buildGraph files).links.countP (fun l => decide (l = ⟨s, t⟩))
      = if t = "" ∨ t = s then 0
        else (files.map fun f =>
            if f.path = s then
              f.includes.countP fun inc =>
                decide (resolveInclude files f inc = some t)
            else 0).sum := by
  unfold buildGraph
  dsimp only
  rw [countP_flatMap]
  by_cases hts : t = "" ∨ t = s
  · rw [if_pos hts]
    apply List.sum_eq_zero
    intro x hx
    simp only [List.mem_map] at hx
    obtain ⟨f, _, rfl⟩ := hx
    rw [count_edgesOfFile, if_neg fun h => h.2 hts]
  · rw [if_neg hts]
    refine congrArg List.sum (List.map_congr_left fun f _ => ?_)
    rw [count_edgesOfFile]
    by_cases hfs : f.path = s
    · rw [if_pos ⟨hfs, fun h => hts h⟩, if_pos hfs]
    · rw [if_neg fun h => hfs h.1, if_neg hfs]

/-- Claim C3, counterexample to the original statement: in `F3` the file
`a/a.cpp` lists `b.h` twice and the builder emits the edge
`(a/a.cpp, a/b.h)` twice. -/
theorem buildGraph_duplicate_edge :
    ¬((buildGraph F3).links.countP
        (fun l => decide (l = ⟨"a/a.cpp", "a/b.h"⟩)) ≤ 1) := by decide
